import Mathlib

/-!
# Verification of the SmartSim-Scaling orchestration drivers

Shallow embedding of the scaling-test orchestration logic of
`driver.py`, `cpp-throughput/driver.py` and `throughput-plotter.py`:
permutation generation (`itertools.product`), run naming, the sweep
loops as event traces, run-config persistence, and result aggregation.

Layout: all definitions first, then all theorems.
-/

namespace SmartSimScaling

/-! ## Definitions

### Permutation generation

`itertools.product(l₁, …, lₙ)` yields tuples in lexicographic order with
the rightmost axis varying fastest; `productL` is its list-of-axes form:
`productL [l₁, …, lₙ]` enumerates, for each `x ∈ l₁` in order, `x`
consed onto every tuple of `productL [l₂, …, lₙ]`. -/

def productL {α : Type} : List (List α) → List (List α)
  | [] => [[]]
  | xs :: rest => xs.flatMap (fun x => (productL rest).map (x :: ·))

/-- All index tuples for axes of sizes `ks`, in the same enumeration
order as `productL` (leftmost index slowest). -/
def idxTuples : List Nat → List (List Nat)
  | [] => [[]]
  | k :: ks => (List.range k).flatMap (fun i => (idxTuples ks).map (i :: ·))

/-- The permutation list built at the `inference_standard` call site:
`product(client_nodes, clients_per_node, db_nodes, db_cpus, db_tpq,
batch_size)`, each axis a list of ints. -/
def inferencePerms (client_nodes clients_per_node db_nodes db_cpus
    db_tpq batch_size : List Int) : List (List Int) :=
  productL [client_nodes, clients_per_node, db_nodes, db_cpus, db_tpq,
    batch_size]

/-- Permutations `product(client_nodes, clients_per_node, db_nodes,
tensor_bytes)` in the slurm driver's `throughput`. -/
def slurmThroughputPerms (client_nodes clients_per_node db_nodes
    tensor_bytes : List Int) : List (List Int) :=
  productL [client_nodes, clients_per_node, db_nodes, tensor_bytes]

/-- Permutations `product(client_nodes, clients_per_node, tensor_bytes)`
inside one `db_nodes` group of `throughput_scaling`. -/
def throughputScalingPerms (client_nodes clients_per_node
    tensor_bytes : List Int) : List (List Int) :=
  productL [client_nodes, clients_per_node, tensor_bytes]

/-! ### Run naming

`_get_uuid` truncates a fresh `uuid4` string to its first 4 characters;
the entropy source is a parameter of the model. -/

def getUuid (entropy : String) : String := entropy.take 4

/-- Run name built by `create_throughput_session` in `driver.py`:
`"-".join(("throughput-sess", "N"+str(nodes), "T"+str(tasks),
"DBN"+str(db_nodes), "ITER"+str(iterations), "TB"+str(_bytes),
_get_uuid()))`. -/
def throughputSessionName (nodes tasks db_nodes iterations _bytes : Nat)
    (uuid : String) : String :=
  String.intercalate "-"
    ["throughput-sess", "N" ++ toString nodes, "T" ++ toString tasks,
     "DBN" ++ toString db_nodes, "ITER" ++ toString iterations,
     "TB" ++ toString _bytes, uuid]

/-- Everything of `throughputSessionName` up to and including the dash
before the uuid token. -/
def throughputNameStem (nodes tasks db_nodes iterations _bytes : Nat) :
    String :=
  "throughput-sess" ++ "-" ++ ("N" ++ toString nodes) ++ "-"
    ++ ("T" ++ toString tasks) ++ "-" ++ ("DBN" ++ toString db_nodes)
    ++ "-" ++ ("ITER" ++ toString iterations) ++ "-"
    ++ ("TB" ++ toString _bytes) ++ "-"

/-- Run name built by `create_inference_session` in `driver.py`:
`"-".join(("infer-sess", "N"+str(nodes), "T"+str(tasks),
"DBN"+str(db_nodes), "DBC"+str(db_cpus), "DBTPQ"+str(db_tpq),
_get_uuid()))`. -/
def inferSessionName (nodes tasks db_nodes db_cpus db_tpq : Nat)
    (uuid : String) : String :=
  String.intercalate "-"
    ["infer-sess", "N" ++ toString nodes, "T" ++ toString tasks,
     "DBN" ++ toString db_nodes, "DBC" ++ toString db_cpus,
     "DBTPQ" ++ toString db_tpq, uuid]

/-- Run name built by `create_throughput_session` in
`cpp-throughput/driver.py`:
`"-".join(("throughput-sess", str(nodes), str(tasks), str(db),
str(bytes)))` — note: no uuid token. -/
def slurmThroughputSessionName (nodes tasks db _bytes : Nat) : String :=
  String.intercalate "-"
    ["throughput-sess", toString nodes, toString tasks, toString db,
     toString _bytes]

/-! ### Sweep loops as event traces

The three sweep drivers are embedded as functions from the permutation
list and an abstract scheduler outcome (`stat`, the terminal status the
`i`-th submitted client job reaches — `exp.start(..., block=True)`
blocks until terminal) to the sequence of externally visible actions
they perform, in order. -/

inductive JobStatus : Type
  | completed
  | failed
  | cancelled
deriving DecidableEq

inductive Event : Type
  | getAllocation
  | startDB (dbNodes : Int)
  | stopDB (dbNodes : Int)
  | generateRun (g i : Nat)
  | writeRunConfig (g i : Nat)
  | setupResnet (i : Nat)
  | startJob (g i : Nat)
  | startPost (i : Nat)
  | logError (g i : Nat)
  | releaseAllocation
deriving DecidableEq

def isStopDB : Event → Bool
  | .stopDB _ => true
  | _ => false

def isStartDB : Event → Bool
  | .startDB _ => true
  | _ => false

/-- Loop body sequence of `inference_standard` (`driver.py` lines
87–128), starting at permutation index `i`: per permutation
`(c_nodes, cpn, dbn, dbc, dbtpq, batch)` it starts a database, creates
the session (generate + run-config write), sets up resnet, starts the
job (blocking), stops the database, then logs if the terminal status is
not `STATUS_COMPLETED` — and always proceeds to the next permutation.
`dbn` is component 2 of the permutation tuple. -/
def inferenceLoop (stat : Nat → JobStatus) :
    Nat → List (List Int) → List Event
  | _, [] => []
  | i, p :: rest =>
    [Event.startDB (p.getD 2 0), Event.generateRun 0 i,
     Event.writeRunConfig 0 i, Event.setupResnet i, Event.startJob 0 i,
     Event.stopDB (p.getD 2 0)]
    ++ (if stat i = JobStatus.completed then [] else [Event.logError 0 i])
    ++ inferenceLoop stat (i + 1) rest

def inferenceTrace (perms : List (List Int)) (stat : Nat → JobStatus) :
    List Event :=
  inferenceLoop stat 0 perms

/-- Inner permutation loop of `throughput_scaling` (`driver.py` lines
281–297) for database group `g`: create the session (generate +
run-config write), start it, log on a non-completed status, and proceed
to the next permutation regardless. -/
def tsRunLoop (stat : Nat → Nat → JobStatus) (g : Nat) :
    Nat → List (List Int) → List Event
  | _, [] => []
  | i, _p :: rest =>
    [Event.generateRun g i, Event.writeRunConfig g i, Event.startJob g i]
    ++ (if stat g i = JobStatus.completed then []
        else [Event.logError g i])
    ++ tsRunLoop stat g (i + 1) rest

/-- Outer `db_nodes` loop of `throughput_scaling` (`driver.py` lines
265–300): one database started per `db_nodes` value, all permutations
run against it, and `exp.stop(db)` after the whole set. -/
def tsGroupLoop (stat : Nat → Nat → JobStatus)
    (perms : List (List Int)) : Nat → List Int → List Event
  | _, [] => []
  | g, dbn :: rest =>
    (Event.startDB dbn :: tsRunLoop stat g 0 perms ++ [Event.stopDB dbn])
    ++ tsGroupLoop stat perms (g + 1) rest

def throughputScalingTrace (db_nodes : List Int)
    (perms : List (List Int)) (stat : Nat → Nat → JobStatus) :
    List Event :=
  tsGroupLoop stat perms 0 db_nodes

/-- Permutation loop of the slurm driver's `throughput`
(`cpp-throughput/driver.py` lines 79–110): per permutation a fresh
database is started (`perm[2]` nodes), the session generated and
started; on a non-completed terminal status it logs and `break`s —
skipping the post-processing step *and* the `exp.stop(db)` at the end
of the loop body; otherwise it runs post-processing, stops the
database and continues. -/
def slurmLoop (stat : Nat → JobStatus) :
    Nat → List (List Int) → List Event
  | _, [] => []
  | i, p :: rest =>
    [Event.startDB (p.getD 2 0), Event.generateRun 0 i,
     Event.startJob 0 i]
    ++ (if stat i = JobStatus.completed
        then [Event.startPost i, Event.stopDB (p.getD 2 0)]
              ++ slurmLoop stat (i + 1) rest
        else [Event.logError 0 i])

/-- Trace of `SlurmScalingTests.throughput`: allocation, permutation loop, then
(after the summary `try`/`except`) allocation release. -/
def slurmThroughputTrace (perms : List (List Int))
    (stat : Nat → JobStatus) : List Event :=
  Event.getAllocation :: slurmLoop stat 0 perms
    ++ [Event.releaseAllocation]

/-! ### Run-config persistence (`write_run_config`)

The on-disk state is a map from paths to config contents; writing opens
the file with mode `"w"`, replacing any previous content. -/

structure RunCfg where
  run : List (String × String)
  attributes : List (String × String)
deriving DecidableEq

/-- The key/value snapshot `write_run_config` produces: a `run` section
with identity fields and an `attributes` section holding the kwargs. -/
def mkRunConfig (name path smartsimVersion smartredisVersion db date :
    String) (kwargs : List (String × String)) : RunCfg :=
  { run := [("name", name), ("path", path),
            ("smartsim_version", smartsimVersion),
            ("smartredis_version", smartredisVersion), ("db", db),
            ("date", date)],
    attributes := kwargs }

/-- Semantics of `open(config_path, "w")` + `config.write(f)`: replace whatever was
at `path`. -/
def writeRunConfigFile (fs : String → Option RunCfg) (path : String)
    (cfg : RunCfg) : String → Option RunCfg :=
  fun q => if q = path then some cfg else fs q

/-! ### Throughput derivation (`throughput-plotter.py`)

The plotter's inner loop computes, per raw sample line,
`speed = size*loop_iters/float(vals[2])/1e9` (GB/s). Real arithmetic is
modelled over `ℚ`. -/

def speed (size loop_iters : Nat) (elapsed : ℚ) : ℚ :=
  size * loop_iters / elapsed / 1000000000

/-- The spec's wording of the derived metric: `payload_bytes ×
iteration_count / elapsed_time`, in bytes per second (before unit
scaling). Stated from the spec for comparison with `speed`. -/
def specDerivedThroughputBps (payload_bytes iteration_count : Nat)
    (elapsed_time : ℚ) : ℚ :=
  payload_bytes * iteration_count / elapsed_time

/-! ### Result aggregation (`process_scaling_results`)

A run directory is modelled by what aggregation can observe of it: the
raw metric samples (or `none` when missing/unreadable/malformed) and
the derived per-run CSV currently on disk (or `none`). -/

structure RawSample where
  payloadBytes : Nat
  iterations : Nat
  elapsed : ℚ
deriving DecidableEq

structure RunDirState where
  raw : Option (List RawSample)
  csv : Option (List ℚ)
deriving DecidableEq

/-- Modelled from the spec: `create_run_csv` lives in
`process_results.py`, which is not under src/ (only its import and call
site are). Per spec §4.6 it scans the run's raw metric files, derives a
throughput value per sample, and writes the per-run CSV; it is
idempotent by file existence — when the CSV already exists and
overwrite (`delete_previous`) is not requested, the run is skipped with
no extraction work; raw files missing/unreadable/malformed is its error
case. Returns the updated directory state and whether extraction work
was performed. -/
def create_run_csv (st : RunDirState) (delete_previous : Bool) :
    Except String (RunDirState × Bool) :=
  if st.csv.isSome && !delete_previous then Except.ok (st, false)
  else
    match st.raw with
    | some samples =>
        Except.ok
          ({ st with
              csv := some (samples.map (fun s =>
                specDerivedThroughputBps s.payloadBytes s.iterations
                  s.elapsed)) }, true)
    | none => Except.error "could not process results"

/-- First loop of `process_scaling_results` (lines 323–332): call
`create_run_csv` per run, catching every exception, logging a warning
and continuing with the run unchanged. Returns the new directory
states, the number of warnings, and how many runs actually performed
extraction work. -/
def extractPhase (overwrite : Bool) :
    List RunDirState → List RunDirState × Nat × Nat
  | [] => ([], 0, 0)
  | st :: rest =>
    let r := extractPhase overwrite rest
    match create_run_csv st overwrite with
    | Except.ok (st', did) =>
        (st' :: r.1, r.2.1, r.2.2 + (if did then 1 else 0))
    | Except.error _ => (st :: r.1, r.2.1 + 1, r.2.2)

/-- Second loop of `process_scaling_results` (lines 335–344): read each
run's per-run CSV, catching every exception, logging a warning and
skipping unreadable ones. Returns the collected dataframes in run order
and the warning count. -/
def collectPhase : List RunDirState → List (List ℚ) × Nat
  | [] => ([], 0)
  | st :: rest =>
    let r := collectPhase rest
    match st.csv with
    | some df => (df :: r.1, r.2)
    | none => (r.1, r.2 + 1)

/-- Model of `process_scaling_results` (lines 303–353): extraction pass, collect
pass, then `pd.concat(dataframes)` — which raises exactly when the list
of dataframes is empty; the outer `except` logs and re-raises, so the
call fails precisely when zero runs could be aggregated. On success the
combined CSV holds the concatenation of the collected per-run frames.
Result: outcome, total warning count, extraction-work count. -/
def process_scaling_results (runs : List RunDirState)
    (overwrite : Bool) : Except String (List ℚ) × Nat × Nat :=
  let ex := extractPhase overwrite runs
  let col := collectPhase ex.1
  if col.1.isEmpty then
    (Except.error "Could not preprocess results", ex.2.1 + col.2,
      ex.2.2)
  else (Except.ok col.1.flatten, ex.2.1 + col.2, ex.2.2)

/-! ### Run-directory selection

`runs = [d for d in os.listdir(scaling_dir) if "sess" in d]`
(line 318): a pure substring test on entry names. -/

/-- Python's `p in s` substring test on character lists. -/
def hasSub (p : List Char) : List Char → Bool
  | [] => p.isEmpty
  | c :: rest => p.isPrefixOf (c :: rest) || hasSub p rest

def selectRuns (entries : List String) : List String :=
  entries.filter (fun d => hasSub "sess".toList d.toList)

/-- The whole aggregation pass over a scaling directory: select run
entries by the `"sess"` substring test, then aggregate their directory
states. -/
def processDir (entries : List String)
    (dirState : String → RunDirState) (overwrite : Bool) :
    Except String (List ℚ) × Nat × Nat :=
  process_scaling_results ((selectRuns entries).map dirState) overwrite

/-! ## Theorems -/

theorem length_productL {α : Type} (axes : List (List α)) :
    (productL axes).length = (axes.map List.length).prod := by
  induction axes with
  | nil => rfl
  | cons xs rest ih =>
    simp [productL, List.length_flatMap, ih, Function.comp]
    induction xs with
    | nil => simp
    | cons x xs ihx => simp [ihx, Nat.succ_mul, ih]; omega

theorem mem_productL {α : Type} (axes : List (List α)) (t : List α) :
    t ∈ productL axes ↔ List.Forall₂ (fun x ax => x ∈ ax) t axes := by
  induction axes generalizing t with
  | nil =>
    simp only [productL, List.mem_singleton]
    constructor
    · rintro rfl; exact List.Forall₂.nil
    · intro h; cases h; rfl
  | cons xs rest ih =>
    simp only [productL, List.mem_flatMap, List.mem_map]
    constructor
    · rintro ⟨x, hx, t', ht', rfl⟩
      exact List.Forall₂.cons hx ((ih t').mp ht')
    · intro h
      cases h with
      | cons hx ht => exact ⟨_, hx, _, (ih _).mpr ht, rfl⟩

/-- A `flatMap` over a list is a `flatMap` over its index range. -/
theorem flatMap_eq_range_flatMap {α β : Type} (xs : List α) (d : α)
    (g : α → List β) :
    xs.flatMap g
      = (List.range xs.length).flatMap (fun i => g (xs.getD i d)) := by
  induction xs with
  | nil => rfl
  | cons x xs ih =>
    simp only [List.flatMap_cons, List.length_cons, List.range_succ_eq_map,
      List.flatMap_map]
    congr 1

/-- Theorem: `productL` is the image of the lexicographically ordered index
tuples under positional lookup. -/
theorem productL_eq_map_idxTuples {α : Type} (d : α) (axes : List (List α)) :
    productL axes
      = (idxTuples (axes.map List.length)).map
          (fun ix => List.zipWith (fun ax i => ax.getD i d) axes ix) := by
  induction axes with
  | nil => rfl
  | cons xs rest ih =>
    simp only [productL, idxTuples, List.map_cons, List.map_flatMap,
      List.map_map]
    rw [flatMap_eq_range_flatMap xs d]
    apply List.flatMap_congr
    intro i _
    rw [ih, List.map_map]
    rfl

theorem pairwise_of_flatMap {α β : Type} (R : β → β → Prop)
    (f : α → List β) :
    ∀ (l : List α),
      List.Pairwise (fun a b => ∀ x ∈ f a, ∀ y ∈ f b, R x y) l →
      (∀ a ∈ l, List.Pairwise R (f a)) →
      List.Pairwise R (l.flatMap f) := by
  intro l
  induction l with
  | nil => intro _ _; exact List.Pairwise.nil
  | cons a l ih =>
    intro hp hin
    rw [List.flatMap_cons, List.pairwise_append]
    refine ⟨hin a (by simp), ih hp.of_cons (fun b hb => hin b (by simp [hb])), ?_⟩
    intro x hx y hy
    rcases List.mem_flatMap.mp hy with ⟨b, hb, hyb⟩
    exact (List.rel_of_pairwise_cons hp hb) x hx y hyb

/-- The index tuples are strictly increasing in the lexicographic order
on `Nat` lists: the enumeration order of `productL` is the lexicographic
order by axis declaration order. -/
theorem pairwise_lex_idxTuples (ks : List Nat) :
    List.Pairwise (List.Lex (· < ·)) (idxTuples ks) := by
  induction ks with
  | nil => exact List.pairwise_singleton _ _
  | cons k ks ih =>
    apply pairwise_of_flatMap
    · have : List.Pairwise (· < ·) (List.range k) := List.pairwise_lt_range k
      refine this.imp_of_mem ?_
      intro i j _ _ hij
      intro x hx y hy
      rcases List.mem_map.mp hx with ⟨a, _, rfl⟩
      rcases List.mem_map.mp hy with ⟨b, _, rfl⟩
      exact List.Lex.rel hij
    · intro i _
      rw [List.pairwise_map]
      exact ih.imp (fun h => List.Lex.cons h)

/-- An axis with zero candidate values makes the whole product empty. -/
theorem productL_eq_nil_of_mem_nil {α : Type} (axes : List (List α))
    (h : [] ∈ axes) : productL axes = [] := by
  have hlen : (productL axes).length = 0 := by
    rw [length_productL]
    exact List.prod_eq_zero (by simpa using List.mem_map_of_mem List.length h)
  exact List.eq_nil_of_length_eq_zero hlen

/-- Step equations for `String.intercalate`'s accumulator loop. -/
theorem intercalate_go_cons (a s b : String) (bs : List String) :
    String.intercalate.go a s (b :: bs)
      = String.intercalate.go (a ++ s ++ b) s bs := rfl

theorem intercalate_go_nil (a s : String) :
    String.intercalate.go a s [] = a := rfl

/-- Left cancellation for string append. -/
theorem string_append_left_cancel {a u v : String} (h : a ++ u = a ++ v) :
    u = v := by
  apply String.ext
  have := congrArg String.data h
  simpa using List.append_cancel_left this

/-- The dash-joined throughput run name is its stem followed by the
uuid token. -/
theorem throughputSessionName_eq_stem_append
    (nodes tasks db_nodes iterations _bytes : Nat) (u : String) :
    throughputSessionName nodes tasks db_nodes iterations _bytes u
      = throughputNameStem nodes tasks db_nodes iterations _bytes ++ u := by
  simp only [throughputSessionName, String.intercalate, intercalate_go_cons,
    intercalate_go_nil, throughputNameStem, String.append_assoc]

theorem inferenceLoop_append (stat : Nat → JobStatus)
    (l₁ l₂ : List (List Int)) :
    ∀ m, inferenceLoop stat m (l₁ ++ l₂)
      = inferenceLoop stat m l₁
        ++ inferenceLoop stat (m + l₁.length) l₂ := by
  induction l₁ with
  | nil => intro m; simp [inferenceLoop]
  | cons p rest ih =>
    intro m
    simp [inferenceLoop, ih (m + 1), List.append_assoc]
    have : m + 1 + rest.length = m + (rest.length + 1) := by omega
    rw [this]

theorem startJob_mem_inferenceLoop (stat : Nat → JobStatus) (j : Nat) :
    ∀ (l : List (List Int)) (m : Nat),
      Event.startJob 0 j ∈ inferenceLoop stat m l
        ↔ m ≤ j ∧ j < m + l.length := by
  intro l
  induction l with
  | nil => intro m; simp [inferenceLoop]
  | cons p rest ih =>
    intro m
    by_cases h : stat m = JobStatus.completed <;>
      simp [inferenceLoop, h, ih (m + 1)] <;> omega

/-- Behaviour of the slurm `throughput` permutation loop when the job at
permutation index `i` is the first to reach a non-completed terminal
status: every database up to index `i` is started (`i - m + 1` starts
counting from loop index `m`), only the first `i - m` are stopped (the
`break` skips `exp.stop(db)` for the active database), jobs are
submitted exactly for indices `m..i`, and the failure is logged. -/
theorem slurmLoop_first_fail (stat : Nat → JobStatus) :
    ∀ (l : List (List Int)) (m i : Nat),
      (∀ j, m ≤ j → j < i → stat j = JobStatus.completed) →
      stat i ≠ JobStatus.completed →
      m ≤ i → i < m + l.length →
      (slurmLoop stat m l).countP isStopDB = i - m
      ∧ (slurmLoop stat m l).countP isStartDB = i - m + 1
      ∧ (∀ j, Event.startJob 0 j ∈ slurmLoop stat m l
              ↔ m ≤ j ∧ j ≤ i)
      ∧ Event.logError 0 i ∈ slurmLoop stat m l := by
  intro l
  induction l with
  | nil =>
    intro m i _ _ hmi hlt
    simp at hlt
    omega
  | cons p rest ih =>
    intro m i hpre hfail hmi hlt
    rcases Nat.eq_or_lt_of_le hmi with rfl | hmlt
    · simp [slurmLoop, hfail, List.countP_cons, isStopDB, isStartDB]
      omega
    · have hm : stat m = JobStatus.completed := hpre m le_rfl hmlt
      have hrest := ih (m + 1) i
        (fun j hj hji => hpre j (by omega) hji) hfail (by omega)
        (by simp at hlt ⊢; omega)
      simp only [slurmLoop, hm, if_pos rfl]
      refine ⟨?_, ?_, ?_, ?_⟩
      · simp [List.countP_append, List.countP_cons, isStopDB,
          hrest.1]
        omega
      · simp [List.countP_append, List.countP_cons, isStartDB,
          hrest.2.1]
        omega
      · intro j
        simp [hrest.2.2.1 j]
        omega
      · simp [hrest.2.2.2]

theorem startJob_mem_tsRunLoop (stat : Nat → Nat → JobStatus)
    (g g' j : Nat) :
    ∀ (l : List (List Int)) (m : Nat),
      Event.startJob g' j ∈ tsRunLoop stat g m l
        ↔ g' = g ∧ m ≤ j ∧ j < m + l.length := by
  intro l
  induction l with
  | nil => intro m; simp [tsRunLoop]
  | cons p rest ih =>
    intro m
    by_cases h : stat g m = JobStatus.completed <;>
      simp [tsRunLoop, h, ih (m + 1)] <;> omega

/-- No database event occurs inside the inner permutation loop of
`throughput_scaling`: the database is neither stopped nor restarted
between two runs of the same group. -/
theorem no_db_event_tsRunLoop (stat : Nat → Nat → JobStatus) (g : Nat) :
    ∀ (l : List (List Int)) (m : Nat),
      ∀ e ∈ tsRunLoop stat g m l,
        isStopDB e = false ∧ isStartDB e = false := by
  intro l
  induction l with
  | nil => intro m e he; simp [tsRunLoop] at he
  | cons p rest ih =>
    intro m e he
    by_cases h : stat g m = JobStatus.completed <;>
      simp [tsRunLoop, h] at he <;>
      casesm* _ ∨ _ <;>
      first
        | (subst_vars; exact ⟨rfl, rfl⟩)
        | exact ih (m + 1) e (by assumption)

theorem tsGroupLoop_append (stat : Nat → Nat → JobStatus)
    (perms : List (List Int)) (d₁ d₂ : List Int) :
    ∀ g, tsGroupLoop stat perms g (d₁ ++ d₂)
      = tsGroupLoop stat perms g d₁
        ++ tsGroupLoop stat perms (g + d₁.length) d₂ := by
  induction d₁ with
  | nil => intro g; simp [tsGroupLoop]
  | cons d rest ih =>
    intro g
    simp [tsGroupLoop, ih (g + 1), List.append_assoc]
    have : g + 1 + rest.length = g + (rest.length + 1) := by omega
    rw [this]

theorem countP_stopDB_tsGroupLoop (stat : Nat → Nat → JobStatus)
    (perms : List (List Int)) :
    ∀ (dbns : List Int) (g : Nat),
      (tsGroupLoop stat perms g dbns).countP isStopDB = dbns.length
      ∧ (tsGroupLoop stat perms g dbns).countP isStartDB
          = dbns.length := by
  intro dbns
  induction dbns with
  | nil => intro g; simp [tsGroupLoop]
  | cons d rest ih =>
    intro g
    have hrun := no_db_event_tsRunLoop stat g perms 0
    have h1 : (tsRunLoop stat g 0 perms).countP isStopDB = 0 :=
      List.countP_eq_zero.mpr (fun e he => by simp [(hrun e he).1])
    have h2 : (tsRunLoop stat g 0 perms).countP isStartDB = 0 :=
      List.countP_eq_zero.mpr (fun e he => by simp [(hrun e he).2])
    simp [tsGroupLoop, List.countP_append, List.countP_cons, h1, h2,
      (ih (g + 1)).1, (ih (g + 1)).2, isStopDB, isStartDB]

theorem startJob_mem_tsGroupLoop (stat : Nat → Nat → JobStatus)
    (perms : List (List Int)) (g' j : Nat) :
    ∀ (dbns : List Int) (g : Nat),
      Event.startJob g' j ∈ tsGroupLoop stat perms g dbns
        ↔ g ≤ g' ∧ g' < g + dbns.length ∧ j < perms.length := by
  intro dbns
  induction dbns with
  | nil => intro g; simp [tsGroupLoop]; omega
  | cons d rest ih =>
    intro g
    simp [tsGroupLoop, ih (g + 1),
      startJob_mem_tsRunLoop stat g g' j perms 0]
    omega

/-- Python's substring test agrees with `List.IsInfix`. -/
theorem hasSub_iff_infix (p : List Char) :
    ∀ s : List Char, hasSub p s = true ↔ p <:+: s := by
  intro s
  induction s with
  | nil =>
    simp only [hasSub, List.isEmpty_iff]
    constructor
    · rintro rfl; exact List.infix_rfl
    · intro h; exact List.eq_nil_of_infix_nil h
  | cons c rest ih =>
    simp only [hasSub, Bool.or_eq_true, List.isPrefixOf_iff_prefix, ih,
      List.infix_cons_iff]

/-- C2: for every set of N configuration axes with `k_1..k_N` candidate
values, `itertools.product` (the permutation generator of both drivers)
produces exactly `k_1 * … * k_N` run specifications; membership is
exactly "one value drawn from each axis in order" with no filtering and
no deduplication (the count is the full product even with duplicate
values); and the output is the image, in order, of the index tuples
`idxTuples`, which are strictly sorted in the lexicographic order given
by axis declaration order. -/
theorem C2_permutation_generator {α : Type} (d : α)
    (axes : List (List α)) :
    (productL axes).length = (axes.map List.length).prod
    ∧ (∀ t, t ∈ productL axes
          ↔ List.Forall₂ (fun x ax => x ∈ ax) t axes)
    ∧ productL axes
        = (idxTuples (axes.map List.length)).map
            (fun ix => List.zipWith (fun ax i => ax.getD i d) axes ix)
    ∧ List.Pairwise (List.Lex (· < ·))
        (idxTuples (axes.map List.length)) :=
  ⟨length_productL axes, mem_productL axes,
   productL_eq_map_idxTuples d axes, pairwise_lex_idxTuples _⟩

/-- C3 counterexample: an axis with zero candidate values does *not*
raise any `ConfigurationError` — no such error exists in the code;
`itertools.product` just yields zero permutations and, e.g. with
`db_nodes=[]`, `inference_standard`'s loop performs no action at all. -/
theorem C3_counterexample :
    productL [([1, 2] : List Int), []] = []
    ∧ inferenceTrace (inferencePerms [12] [48] [] [2] [1] [1000])
        (fun _ => JobStatus.completed) = [] := by
  constructor
  · rfl
  · rfl

/-- C3 amended: for every sweep definition containing at least one axis
with zero candidate values, permutation generation *succeeds* with zero
permutations (it is a total pure function with no error case and no
side effects) and the sweep submits no job — the orchestration loop
body never runs. -/
theorem C3_amended {α : Type} (axes : List (List α))
    (axes₂ : List (List Int)) (stat : Nat → JobStatus)
    (h : [] ∈ axes) (h₂ : [] ∈ axes₂) :
    productL axes = []
    ∧ inferenceTrace (productL axes₂) stat = [] := by
  refine ⟨productL_eq_nil_of_mem_nil axes h, ?_⟩
  rw [productL_eq_nil_of_mem_nil axes₂ h₂]
  rfl

theorem C3_amended_witness :
    productL [([1, 2] : List Int), []] = []
    ∧ inferenceTrace (productL [([5] : List Int), [], [7]])
        (fun _ => JobStatus.failed) = [] :=
  C3_amended [[1, 2], []] [[5], [], [7]] (fun _ => JobStatus.failed)
    (by decide) (by decide)

/-- C7: the derived throughput of a raw sample with payload `p` bytes,
iteration count `n` and elapsed time `t` seconds is `p * n / t` bytes
per second scaled by `1e9` to GB/s — `speed` in the plotter computes
exactly the spec's formula divided by `1e9`; at `p = 1024000`,
`n = 100`, `t = 1.0` the derived value is 102 400 000 bytes/second,
i.e. 0.1024 GB/s. -/
theorem C7_throughput_derivation (p n : Nat) (t : ℚ) :
    speed p n t = specDerivedThroughputBps p n t / 1000000000
    ∧ specDerivedThroughputBps 1024000 100 1 = 102400000
    ∧ speed 1024000 100 1 = 1024 / 10000 := by
  refine ⟨rfl, ?_, ?_⟩
  · norm_num [specDerivedThroughputBps]
  · norm_num [speed]

/-- C10: the aggregation pass selects run directories purely by the
`"sess"` substring test on the entry name: the processed set is exactly
the entries containing `"sess"`; the `results` directory name contains
no such substring and is never selected; and the whole-directory pass
aggregates exactly the directory states of the selected entries. -/
theorem C10_run_selection (entries : List String)
    (dirState : String → RunDirState) (ow : Bool) (run : String) :
    (run ∈ selectRuns entries
      ↔ run ∈ entries ∧ "sess".toList <:+: run.toList)
    ∧ hasSub "sess".toList "results".toList = false
    ∧ processDir entries dirState ow
        = process_scaling_results ((selectRuns entries).map dirState)
            ow := by
  refine ⟨?_, by decide, rfl⟩
  simp [selectRuns, List.mem_filter, hasSub_iff_infix]

/-- C4 counterexample: in `cpp-throughput/driver.py`,
`create_throughput_session` builds the run name with *no* random token
— the name is a fixed function of the parameter values, so two run
specifications with identical parameters (in particular across two
distinct sweep invocations) always receive the *same*, colliding name. -/
theorem C4_counterexample :
    slurmThroughputSessionName 160 48 15 1024
      = slurmThroughputSessionName 160 48 15 1024
    ∧ slurmThroughputSessionName 160 48 15 1024
      = "throughput-sess-160-48-15-1024" := by
  exact ⟨rfl, by decide⟩

/-- C4 amended: in `driver.py`, run names are dash-joined strings
embedding the run kind and every swept parameter value, suffixed with
the 4-character token `_get_uuid()` truncates from a fresh uuid4 —
so for identical parameter values two generated names coincide exactly
when their random tokens coincide (collision resistance holds only up
to a token collision, which the 4-character token makes unlikely but
not impossible). In `cpp-throughput/driver.py` the name carries no
token at all: it is the plain dash-join of the parameter values. -/
theorem C4_amended (nodes tasks db_nodes iterations _bytes : Nat)
    (u u' e : String) :
    (throughputSessionName nodes tasks db_nodes iterations _bytes u
       = throughputSessionName nodes tasks db_nodes iterations _bytes u'
     ↔ u = u')
    ∧ throughputSessionName nodes tasks db_nodes iterations _bytes u
        = throughputNameStem nodes tasks db_nodes iterations _bytes ++ u
    ∧ getUuid e = e.take 4
    ∧ slurmThroughputSessionName nodes tasks db_nodes _bytes
        = "throughput-sess" ++ "-" ++ toString nodes ++ "-"
          ++ toString tasks ++ "-" ++ toString db_nodes ++ "-"
          ++ toString _bytes := by
  refine ⟨?_, throughputSessionName_eq_stem_append _ _ _ _ _ _, rfl, ?_⟩
  · constructor
    · intro h
      rw [throughputSessionName_eq_stem_append,
        throughputSessionName_eq_stem_append] at h
      exact string_append_left_cancel h
    · intro h; rw [h]
  · simp only [slurmThroughputSessionName, String.intercalate,
      intercalate_go_cons, intercalate_go_nil, String.append_assoc]

theorem collectPhase_spec (l : List RunDirState) :
    (collectPhase l).1 = l.filterMap RunDirState.csv
    ∧ (collectPhase l).2 = l.countP (fun st => st.csv.isNone) := by
  induction l with
  | nil => exact ⟨rfl, rfl⟩
  | cons st rest ih =>
    cases h : st.csv <;>
      simp [collectPhase, h, List.filterMap_cons, List.countP_cons,
        ih.1, ih.2]

theorem extractPhase_length (ow : Bool) (l : List RunDirState) :
    (extractPhase ow l).1.length = l.length := by
  induction l with
  | nil => rfl
  | cons st rest ih =>
    cases h : create_run_csv st ow with
    | ok p => simp [extractPhase, h, ih]
    | error e => simp [extractPhase, h, ih]

/-- After any extraction pass, every run directory either has its
per-run CSV on disk or has no readable raw data. -/
theorem extractPhase_state_stable (ow : Bool) (l : List RunDirState) :
    ∀ st ∈ (extractPhase ow l).1,
      st.csv.isSome = true ∨ st.raw = none := by
  induction l with
  | nil => simp [extractPhase]
  | cons st rest ih =>
    intro st' hst'
    by_cases hski : st.csv.isSome && !ow
    · have hcsome : st.csv.isSome = true :=
        (Bool.and_eq_true _ _ |>.mp hski).1
      have h : create_run_csv st ow = Except.ok (st, false) := by
        simp [create_run_csv, hski]
      rw [extractPhase, h] at hst'
      rcases List.mem_cons.mp hst' with rfl | hmem
      · exact Or.inl hcsome
      · exact ih st' hmem
    · cases hraw : st.raw with
      | some samples =>
        have h : create_run_csv st ow
            = Except.ok
                ({ st with
                    csv := some (samples.map (fun s =>
                      specDerivedThroughputBps s.payloadBytes
                        s.iterations s.elapsed)) }, true) := by
          simp [create_run_csv, hski, hraw]
        rw [extractPhase, h] at hst'
        rcases List.mem_cons.mp hst' with rfl | hmem
        · exact Or.inl rfl
        · exact ih st' hmem
      | none =>
        have h : create_run_csv st ow
            = Except.error "could not process results" := by
          simp [create_run_csv, hski, hraw]
        rw [extractPhase, h] at hst'
        rcases List.mem_cons.mp hst' with rfl | hmem
        · exact Or.inr hraw
        · exact ih st' hmem

/-- A second extraction pass without the overwrite flag over unchanged
run directories leaves every directory state untouched and performs no
extraction work. -/
theorem extractPhase_no_overwrite_stable (l : List RunDirState)
    (h : ∀ st ∈ l, st.csv.isSome = true ∨ st.raw = none) :
    (extractPhase false l).1 = l
    ∧ (extractPhase false l).2.2 = 0 := by
  induction l with
  | nil => exact ⟨rfl, rfl⟩
  | cons st rest ih =>
    have hr := ih (fun s hs => h s (List.mem_cons_of_mem st hs))
    by_cases hc : st.csv.isSome
    · have hcr : create_run_csv st false = Except.ok (st, false) := by
        simp [create_run_csv, hc]
      simp [extractPhase, hcr, hr.1, hr.2]
    · have hrawn : st.raw = none := by
        rcases h st (List.mem_cons_self st rest) with hx | hx
        · exact absurd hx hc
        · exact hx
      have hcr : create_run_csv st false
          = Except.error "could not process results" := by
        simp [create_run_csv, hc, hrawn]
      simp [extractPhase, hcr, hr.1, hr.2]

/-- C5: during aggregation a run whose raw files are missing or whose
per-run CSV cannot be read never aborts the batch — the pass keeps one
state per run (nothing is dropped), the combined output is built from
exactly the runs whose CSVs were read, every skipped run adds one
logged warning, and the pass fails fatally exactly when zero runs could
be aggregated. -/
theorem C5_aggregation_fault_tolerance (runs : List RunDirState)
    (ow : Bool) :
    ((process_scaling_results runs ow).1
        = Except.error "Could not preprocess results"
      ↔ (extractPhase ow runs).1.filterMap RunDirState.csv = [])
    ∧ ((extractPhase ow runs).1.filterMap RunDirState.csv ≠ [] →
        (process_scaling_results runs ow).1
          = Except.ok
              ((extractPhase ow runs).1.filterMap
                RunDirState.csv).flatten)
    ∧ (extractPhase ow runs).1.length = runs.length
    ∧ (process_scaling_results runs ow).2.1
        = (extractPhase ow runs).2.1
          + (extractPhase ow runs).1.countP
              (fun st => st.csv.isNone) := by
  have hc := collectPhase_spec (extractPhase ow runs).1
  by_cases he : (extractPhase ow runs).1.filterMap RunDirState.csv = []
  · simp [process_scaling_results, hc.1, hc.2, he,
      extractPhase_length]
  · simp [process_scaling_results, hc.1, hc.2, he,
      extractPhase_length]

theorem C5_witness :
    let runs := [⟨none, none⟩,
                 ⟨some [⟨1024, 10, 1⟩], none⟩,
                 (⟨none, some [5]⟩ : RunDirState)]
    ((process_scaling_results runs true).1
        = Except.error "Could not preprocess results"
      ↔ (extractPhase true runs).1.filterMap RunDirState.csv = [])
    ∧ ((extractPhase true runs).1.filterMap RunDirState.csv ≠ [] →
        (process_scaling_results runs true).1
          = Except.ok
              ((extractPhase true runs).1.filterMap
                RunDirState.csv).flatten)
    ∧ (extractPhase true runs).1.length = runs.length
    ∧ (process_scaling_results runs true).2.1
        = (extractPhase true runs).2.1
          + (extractPhase true runs).1.countP
              (fun st => st.csv.isNone) :=
  C5_aggregation_fault_tolerance _ true

/-- C6: per-run extraction is idempotent by file existence — a run
whose derived CSV already exists is skipped (state unchanged, no work)
when overwrite is not requested, and a second extraction pass over the
unchanged directory states reproduces every per-run CSV identically
while performing zero extraction work. -/
theorem C6_idempotent_extraction (st : RunDirState) (ow : Bool)
    (runs : List RunDirState) (h : st.csv.isSome = true) :
    create_run_csv st false = Except.ok (st, false)
    ∧ (extractPhase false ((extractPhase ow runs).1)).1
        = (extractPhase ow runs).1
    ∧ (extractPhase false ((extractPhase ow runs).1)).2.2 = 0 := by
  have hs := extractPhase_no_overwrite_stable (extractPhase ow runs).1
    (extractPhase_state_stable ow runs)
  exact ⟨by simp [create_run_csv, h], hs.1, hs.2⟩

theorem C6_witness :
    create_run_csv ⟨none, some [5]⟩ false
        = Except.ok (⟨none, some [5]⟩, false)
    ∧ (extractPhase false
        ((extractPhase true
          [⟨some [⟨1024, 10, 1⟩], none⟩, ⟨none, none⟩]).1)).1
        = (extractPhase true
            [⟨some [⟨1024, 10, 1⟩], none⟩, ⟨none, none⟩]).1
    ∧ (extractPhase false
        ((extractPhase true
          [⟨some [⟨1024, 10, 1⟩], none⟩, ⟨none, none⟩]).1)).2.2
        = 0 :=
  C6_idempotent_extraction ⟨none, some [5]⟩ true
    [⟨some [⟨1024, 10, 1⟩], none⟩, ⟨none, none⟩] (by decide)

/-- C8: under the grouped deployment-reuse policy of
`throughput_scaling`, exactly one database deployment is started and
one stopped per `db_nodes` value; every permutation runs (as a job
`startJob g i`) against the deployment of its group; the inner loop
contains no database start/stop at all (so the deployment is never
stopped between two runs of a group); and the trace decomposes around
group `g` as `… ++ startDB dbnₘ :: (all runs of group g ++ stopDB dbnₘ
:: rest)` — teardown strictly after every run of the group has reached
its (blocking-wait) terminal state. -/
theorem C8_grouped_deployment (db_nodes cns cpns tbs : List Int)
    (stat : Nat → Nat → JobStatus) (g : Nat)
    (hg : g < db_nodes.length) :
    (throughputScalingTrace db_nodes
        (throughputScalingPerms cns cpns tbs) stat).countP isStartDB
      = db_nodes.length
    ∧ (throughputScalingTrace db_nodes
        (throughputScalingPerms cns cpns tbs) stat).countP isStopDB
      = db_nodes.length
    ∧ (∀ g' j, Event.startJob g' j
          ∈ throughputScalingTrace db_nodes
              (throughputScalingPerms cns cpns tbs) stat
        ↔ g' < db_nodes.length
          ∧ j < (throughputScalingPerms cns cpns tbs).length)
    ∧ (∀ e ∈ tsRunLoop stat g 0 (throughputScalingPerms cns cpns tbs),
        isStopDB e = false ∧ isStartDB e = false)
    ∧ (∀ j, Event.startJob g j
          ∈ tsRunLoop stat g 0 (throughputScalingPerms cns cpns tbs)
        ↔ j < (throughputScalingPerms cns cpns tbs).length)
    ∧ ∃ pre suf,
        throughputScalingTrace db_nodes
            (throughputScalingPerms cns cpns tbs) stat
          = pre ++ Event.startDB (db_nodes.getD g 0)
              :: (tsRunLoop stat g 0 (throughputScalingPerms cns cpns tbs)
                  ++ Event.stopDB (db_nodes.getD g 0) :: suf) := by
  set perms := throughputScalingPerms cns cpns tbs with hperms
  refine ⟨(countP_stopDB_tsGroupLoop stat perms db_nodes 0).2,
    (countP_stopDB_tsGroupLoop stat perms db_nodes 0).1,
    ?_, no_db_event_tsRunLoop stat g perms 0, ?_, ?_⟩
  · intro g' j
    have := startJob_mem_tsGroupLoop stat perms g' j db_nodes 0
    simpa using this
  · intro j
    have := startJob_mem_tsRunLoop stat g g j perms 0
    simpa using this
  · refine ⟨tsGroupLoop stat perms 0 (db_nodes.take g),
      tsGroupLoop stat perms (g + 1) (db_nodes.drop (g + 1))
        ++ [], ?_⟩
    have h1 : db_nodes.take g ++ db_nodes.drop g = db_nodes :=
      List.take_append_drop g db_nodes
    have h2 : db_nodes.drop g
        = db_nodes[g] :: db_nodes.drop (g + 1) :=
      List.drop_eq_getElem_cons hg
    have h3 : (db_nodes.take g).length = g := by
      simp [List.length_take]; omega
    have h4 : db_nodes.getD g 0 = db_nodes[g] :=
      List.getD_eq_getElem db_nodes 0 hg
    calc throughputScalingTrace db_nodes perms stat
        = tsGroupLoop stat perms 0
            (db_nodes.take g ++ db_nodes.drop g) := by
          rw [h1]; rfl
      _ = tsGroupLoop stat perms 0 (db_nodes.take g)
          ++ tsGroupLoop stat perms (0 + (db_nodes.take g).length)
              (db_nodes.drop g) :=
          tsGroupLoop_append stat perms _ _ 0
      _ = tsGroupLoop stat perms 0 (db_nodes.take g)
          ++ tsGroupLoop stat perms g
              (db_nodes[g] :: db_nodes.drop (g + 1)) := by
          rw [h2, h3, Nat.zero_add]
      _ = tsGroupLoop stat perms 0 (db_nodes.take g)
          ++ Event.startDB (db_nodes.getD g 0)
            :: (tsRunLoop stat g 0 perms
                ++ Event.stopDB (db_nodes.getD g 0)
                  :: (tsGroupLoop stat perms (g + 1)
                        (db_nodes.drop (g + 1)) ++ [])) := by
          rw [h4]
          simp [tsGroupLoop, List.append_assoc]

theorem C8_grouped_deployment_witness :
    (throughputScalingTrace [12, 16]
        (throughputScalingPerms [128] [32] [1024, 2048])
        (fun _ _ => JobStatus.failed)).countP isStartDB = 2
    ∧ (throughputScalingTrace [12, 16]
        (throughputScalingPerms [128] [32] [1024, 2048])
        (fun _ _ => JobStatus.failed)).countP isStopDB = 2
    ∧ (∀ g' j, Event.startJob g' j
          ∈ throughputScalingTrace [12, 16]
              (throughputScalingPerms [128] [32] [1024, 2048])
              (fun _ _ => JobStatus.failed)
        ↔ g' < ([12, 16] : List Int).length
          ∧ j < (throughputScalingPerms [128] [32] [1024, 2048]).length)
    ∧ (∀ e ∈ tsRunLoop (fun _ _ => JobStatus.failed) 1 0
          (throughputScalingPerms [128] [32] [1024, 2048]),
        isStopDB e = false ∧ isStartDB e = false)
    ∧ (∀ j, Event.startJob 1 j
          ∈ tsRunLoop (fun _ _ => JobStatus.failed) 1 0
              (throughputScalingPerms [128] [32] [1024, 2048])
        ↔ j < (throughputScalingPerms [128] [32] [1024, 2048]).length)
    ∧ ∃ pre suf,
        throughputScalingTrace [12, 16]
            (throughputScalingPerms [128] [32] [1024, 2048])
            (fun _ _ => JobStatus.failed)
          = pre ++ Event.startDB (([12, 16] : List Int).getD 1 0)
              :: (tsRunLoop (fun _ _ => JobStatus.failed) 1 0
                    (throughputScalingPerms [128] [32] [1024, 2048])
                  ++ Event.stopDB (([12, 16] : List Int).getD 1 0)
                    :: suf) :=
  C8_grouped_deployment [12, 16] [128] [32] [1024, 2048]
    (fun _ _ => JobStatus.failed) 1 (by decide)

/-- C9: for every permutation of `inference_standard`, the run-config
record is written strictly before the client job is submitted
(`write_run_config` runs inside `create_inference_session`, before
`exp.start`), so even a run that later fails has a parameter record;
and `write_run_config` opens the file in mode `"w"`: writing again for
the same path overwrites in place (idempotent write, last write wins). -/
theorem C9_run_config_before_submit (perms : List (List Int))
    (stat : Nat → JobStatus) (i : Nat) (h : i < perms.length)
    (fs : String → Option RunCfg) (path : String) (cfg cfg' : RunCfg) :
    (∃ pre suf,
        inferenceTrace perms stat
          = pre ++ Event.writeRunConfig 0 i :: suf
        ∧ Event.startJob 0 i ∉ pre
        ∧ Event.startJob 0 i ∈ suf)
    ∧ writeRunConfigFile (writeRunConfigFile fs path cfg) path cfg'
        = writeRunConfigFile fs path cfg'
    ∧ writeRunConfigFile fs path cfg path = some cfg := by
  refine ⟨?_, ?_, ?_⟩
  · refine ⟨inferenceLoop stat 0 (perms.take i)
        ++ [Event.startDB ((perms[i]).getD 2 0), Event.generateRun 0 i],
      Event.setupResnet i :: Event.startJob 0 i
        :: Event.stopDB ((perms[i]).getD 2 0)
        :: ((if stat i = JobStatus.completed then []
             else [Event.logError 0 i])
            ++ inferenceLoop stat (i + 1) (perms.drop (i + 1))),
      ?_, ?_, ?_⟩
    · have h1 : perms.take i ++ perms.drop i = perms :=
        List.take_append_drop i perms
      have h2 : perms.drop i = perms[i] :: perms.drop (i + 1) :=
        List.drop_eq_getElem_cons h
      have h3 : (perms.take i).length = i := by
        simp [List.length_take]; omega
      calc inferenceTrace perms stat
          = inferenceLoop stat 0 (perms.take i ++ perms.drop i) := by
            rw [h1]; rfl
        _ = inferenceLoop stat 0 (perms.take i)
            ++ inferenceLoop stat (0 + (perms.take i).length)
                (perms.drop i) :=
            inferenceLoop_append stat _ _ 0
        _ = inferenceLoop stat 0 (perms.take i)
            ++ inferenceLoop stat i
                (perms[i] :: perms.drop (i + 1)) := by
            rw [h2, h3, Nat.zero_add]
        _ = _ := by
            simp [inferenceLoop, List.append_assoc]
    · intro hmem
      rcases List.mem_append.mp hmem with hm | hm
      · have := (startJob_mem_inferenceLoop stat i (perms.take i) 0).mp hm
        rw [List.length_take] at this
        omega
      · simp at hm
    · simp
  · funext q
    by_cases hq : q = path <;> simp [writeRunConfigFile, hq]
  · simp [writeRunConfigFile]

theorem C9_run_config_before_submit_witness :
    (∃ pre suf,
        inferenceTrace (inferencePerms [12] [48] [12] [2] [1] [1000])
            (fun _ => JobStatus.failed)
          = pre ++ Event.writeRunConfig 0 0 :: suf
        ∧ Event.startJob 0 0 ∉ pre
        ∧ Event.startJob 0 0 ∈ suf)
    ∧ writeRunConfigFile
        (writeRunConfigFile (fun _ => none) "run-dir"
          (mkRunConfig "a" "run-dir" "0.4.0" "0.3.1" "redis-server"
            "2022-01-01" []))
        "run-dir"
        (mkRunConfig "b" "run-dir" "0.4.0" "0.3.1" "redis-server"
          "2022-01-02" [("batch_size", "1000")])
        = writeRunConfigFile (fun _ => none) "run-dir"
            (mkRunConfig "b" "run-dir" "0.4.0" "0.3.1" "redis-server"
              "2022-01-02" [("batch_size", "1000")])
    ∧ writeRunConfigFile (fun _ => none) "run-dir"
        (mkRunConfig "a" "run-dir" "0.4.0" "0.3.1" "redis-server"
          "2022-01-01" []) "run-dir"
        = some (mkRunConfig "a" "run-dir" "0.4.0" "0.3.1" "redis-server"
            "2022-01-01" []) :=
  C9_run_config_before_submit
    (inferencePerms [12] [48] [12] [2] [1] [1000])
    (fun _ => JobStatus.failed) 0 (by decide) (fun _ => none) "run-dir"
    (mkRunConfig "a" "run-dir" "0.4.0" "0.3.1" "redis-server"
      "2022-01-01" [])
    (mkRunConfig "b" "run-dir" "0.4.0" "0.3.1" "redis-server"
      "2022-01-02" [("batch_size", "1000")])

/-- C1 counterexample: with two permutations and a failing first job,
the slurm `throughput` sweep does halt (`break`; permutation 1 is never
submitted) but performs *no* `exp.stop` at all — the `break` fires
before the loop body's `exp.stop(db)`, so the active database is not
torn down before the routine returns; while in the main driver's
`throughput_scaling` (the other cited throughput sweep) the same
failure is only logged and permutation 1 is still submitted. -/
theorem C1_counterexample :
    ((slurmThroughputTrace
        (slurmThroughputPerms [160] [48] [15] [1024, 8192])
        (fun _ => JobStatus.failed)).countP isStopDB = 0
     ∧ Event.startJob 0 0
        ∈ slurmThroughputTrace
            (slurmThroughputPerms [160] [48] [15] [1024, 8192])
            (fun _ => JobStatus.failed)
     ∧ Event.startJob 0 1
        ∉ slurmThroughputTrace
            (slurmThroughputPerms [160] [48] [15] [1024, 8192])
            (fun _ => JobStatus.failed))
    ∧ (Event.startJob 0 1
        ∈ throughputScalingTrace [12]
            (throughputScalingPerms [128] [32] [1024, 2048])
            (fun _ _ => JobStatus.failed)
       ∧ Event.logError 0 0
        ∈ throughputScalingTrace [12]
            (throughputScalingPerms [128] [32] [1024, 2048])
            (fun _ _ => JobStatus.failed)) := by
  decide

/-- C1 amended: when the job at permutation `i` is the first to reach a
non-completed terminal status, the slurm `throughput` sweep halts
(jobs are submitted exactly for permutations `0..i`), logs the failure,
starts `i + 1` databases but stops only `i` of them — the active
database is *not* stopped, the `break` skipping the teardown that ends
the loop body — and still releases the slurm allocation before
returning; whereas in the main driver's `throughput_scaling` and in
standard `inference_standard` mode a failure is only logged and every
permutation is still submitted, whatever the statuses. -/
theorem C1_abort_semantics (perms : List (List Int))
    (stat : Nat → JobStatus) (i : Nat)
    (hpre : ∀ j, j < i → stat j = JobStatus.completed)
    (hfail : stat i ≠ JobStatus.completed) (hlt : i < perms.length)
    (db_nodes : List Int) (perms₂ perms₃ : List (List Int))
    (stat₂ : Nat → Nat → JobStatus) (stat₃ : Nat → JobStatus) :
    (slurmThroughputTrace perms stat).countP isStopDB = i
    ∧ (slurmThroughputTrace perms stat).countP isStartDB = i + 1
    ∧ (∀ j, Event.startJob 0 j ∈ slurmThroughputTrace perms stat
          ↔ j ≤ i)
    ∧ Event.logError 0 i ∈ slurmThroughputTrace perms stat
    ∧ Event.releaseAllocation ∈ slurmThroughputTrace perms stat
    ∧ (∀ g j, Event.startJob g j
          ∈ throughputScalingTrace db_nodes perms₂ stat₂
        ↔ g < db_nodes.length ∧ j < perms₂.length)
    ∧ (∀ j, Event.startJob 0 j ∈ inferenceTrace perms₃ stat₃
          ↔ j < perms₃.length) := by
  have hm := slurmLoop_first_fail stat perms 0 i
    (fun j _ hj => hpre j hj) hfail (Nat.zero_le i) (by omega)
  refine ⟨?_, ?_, ?_, ?_, ?_, ?_, ?_⟩
  · simp [slurmThroughputTrace, List.countP_append, List.countP_cons,
      isStopDB, hm.1]
  · simp [slurmThroughputTrace, List.countP_append, List.countP_cons,
      isStartDB, hm.2.1]
  · intro j
    have := hm.2.2.1 j
    simp [slurmThroughputTrace, this]
  · simp [slurmThroughputTrace, hm.2.2.2]
  · simp [slurmThroughputTrace]
  · intro g j
    simpa using startJob_mem_tsGroupLoop stat₂ perms₂ g j db_nodes 0
  · intro j
    simpa using startJob_mem_inferenceLoop stat₃ j perms₃ 0

theorem C1_abort_semantics_witness :
    (slurmThroughputTrace
        (slurmThroughputPerms [160] [48] [15] [1024, 8192])
        (fun j => if j = 0 then JobStatus.completed
                  else JobStatus.failed)).countP isStopDB = 1
    ∧ (slurmThroughputTrace
        (slurmThroughputPerms [160] [48] [15] [1024, 8192])
        (fun j => if j = 0 then JobStatus.completed
                  else JobStatus.failed)).countP isStartDB = 1 + 1
    ∧ (∀ j, Event.startJob 0 j
          ∈ slurmThroughputTrace
              (slurmThroughputPerms [160] [48] [15] [1024, 8192])
              (fun j => if j = 0 then JobStatus.completed
                        else JobStatus.failed)
        ↔ j ≤ 1)
    ∧ Event.logError 0 1
        ∈ slurmThroughputTrace
            (slurmThroughputPerms [160] [48] [15] [1024, 8192])
            (fun j => if j = 0 then JobStatus.completed
                      else JobStatus.failed)
    ∧ Event.releaseAllocation
        ∈ slurmThroughputTrace
            (slurmThroughputPerms [160] [48] [15] [1024, 8192])
            (fun j => if j = 0 then JobStatus.completed
                      else JobStatus.failed)
    ∧ (∀ g j, Event.startJob g j
          ∈ throughputScalingTrace [12]
              (throughputScalingPerms [128] [32] [1024, 2048])
              (fun _ _ => JobStatus.failed)
        ↔ g < ([12] : List Int).length
          ∧ j < (throughputScalingPerms [128] [32] [1024, 2048]).length)
    ∧ (∀ j, Event.startJob 0 j
          ∈ inferenceTrace (inferencePerms [12] [48] [12] [2] [1] [1000])
              (fun _ => JobStatus.failed)
        ↔ j < (inferencePerms [12] [48] [12] [2] [1] [1000]).length) :=
  C1_abort_semantics
    (slurmThroughputPerms [160] [48] [15] [1024, 8192])
    (fun j => if j = 0 then JobStatus.completed else JobStatus.failed)
    1 (by decide) (by decide) (by decide) [12]
    (throughputScalingPerms [128] [32] [1024, 2048])
    (inferencePerms [12] [48] [12] [2] [1] [1000])
    (fun _ _ => JobStatus.failed) (fun _ => JobStatus.failed)

end SmartSimScaling
